import Mathlib

/-!
Verification of the Amélie vision-bot core (`src/core/service.py`,
`src/adapters/security/fernet_adapter.py`, `src/adapters/vision/gemini_adapter.py`)
against its natural-language specification.

The embedding works on `List Char` / `String` for text, `Nat` for timestamps
(seconds since epoch), and explicit state passing for the persistence layer.
Calls performed against the AI provider are modelled as parameters (the value
the awaited coroutine resolves to) plus explicit effect lists (uploads,
queries, fire-and-forget deletions), so theorems can talk about which
provider calls an operation performs and in which order the single-worker
queue runs them.
-/

namespace Amelie

/-! ### Text sanitizer (`VisionService._clean_text_for_accessibility`)

Python source, service.py lines 90-92:
  text.replace("*", "").replace("#", "").replace("_", " ").replace("`", "")
  re.sub(r' +', ' ', text)
  text.strip()
-/

/-- The backtick character (code point 96). -/
def backtickChar : Char := Char.ofNat 96

/-- Python `str.replace(c, "")` for a single character: drop every occurrence. -/
def removeAll (c : Char) (l : List Char) : List Char :=
  l.filter (fun x => x != c)

/-- Python `str.replace(c, d)` for single characters: substitute every occurrence. -/
def replaceChar (c d : Char) (l : List Char) : List Char :=
  l.map (fun x => if x == c then d else x)

/-- Python `re.sub(r' +', ' ', ·)`: each maximal run of spaces becomes one space.
The flag records whether the previous character was a space. -/
def collapseSpacesAux : Bool → List Char → List Char
  | _, [] => []
  | prevSpace, c :: cs =>
    if c == ' ' then
      if prevSpace then collapseSpacesAux true cs
      else ' ' :: collapseSpacesAux true cs
    else c :: collapseSpacesAux false cs

/-- The ASCII whitespace characters removed by Python `str.strip()`. -/
def isPyWhitespaceChar (c : Char) : Bool :=
  c == ' ' || c == '\t' || c == '\n' || c == '\r' || c == Char.ofNat 11 || c == Char.ofNat 12

/-- Python `str.strip()`: drop leading and trailing whitespace. -/
def pyStrip (l : List Char) : List Char :=
  ((l.dropWhile isPyWhitespaceChar).reverse.dropWhile isPyWhitespaceChar).reverse

/-- The code of `VisionService._clean_text_for_accessibility` (service.py lines 80-92):
remove `*`, remove `#`, replace `_` by a space, remove the backtick,
collapse space runs, strip. -/
def clean_text_for_accessibility (text : String) : String :=
  String.mk (pyStrip (collapseSpacesAux false
    (removeAll backtickChar (replaceChar '_' ' ' (removeAll '#' (removeAll '*' text.data))))))

/-! Spec-side sanitizer definitions, for comparison with the code.
`claimStep` follows the claim's words: all four characters are *removed*.
`amendedStep` is the amended description: `*`, `#` and backtick are removed
while `_` is replaced by a space. -/

/-- Per-character action described by the claim: remove `*`, `#`, `_`, backtick. -/
def claimStep (c : Char) : Option Char :=
  if c == '*' || c == '#' || c == '_' || c == backtickChar then none else some c

/-- Per-character action of the amended claim: remove `*`, `#`, backtick;
replace `_` by a space. -/
def amendedStep (c : Char) : Option Char :=
  if c == '*' || c == '#' || c == backtickChar then none
  else if c == '_' then some ' '
  else some c

/-- Spec-side formulation of space-run collapsing: a space immediately
followed by another space is dropped, so each run keeps a single space. -/
def specCollapse : List Char → List Char
  | [] => []
  | [c] => [c]
  | c :: d :: cs =>
    if c == ' ' && d == ' ' then specCollapse (d :: cs)
    else c :: specCollapse (d :: cs)

/-- The sanitizer exactly as the claim words it: remove the four characters,
collapse space runs, trim. -/
def claimSanitize (s : String) : String :=
  String.mk (pyStrip (specCollapse (s.data.filterMap claimStep)))

/-- The sanitizer as amended: `_` becomes a space instead of disappearing. -/
def amendedSanitize (s : String) : String :=
  String.mk (pyStrip (specCollapse (s.data.filterMap amendedStep)))

/-! ### Cipher (`FernetSecurityAdapter`, fernet_adapter.py lines 21-45)

The underlying Fernet primitive lives in the external `cryptography`
library; the adapter wraps it with an empty-input guard.  We parameterize
the adapter over the primitive's encrypt/decrypt pair. -/

/-- The external Fernet primitive: an encrypt/decrypt pair of string maps. -/
structure FernetCore where
  enc : String → String
  dec : String → String

/-- Method `FernetSecurityAdapter.encrypt`: empty input short-circuits to `""`,
otherwise the Fernet primitive encrypts. -/
def FernetSecurityAdapter.encrypt (f : FernetCore) (plain_text : String) : String :=
  if plain_text = "" then "" else f.enc plain_text

/-- Method `FernetSecurityAdapter.decrypt`: empty input short-circuits to `""`,
otherwise the Fernet primitive decrypts. -/
def FernetSecurityAdapter.decrypt (f : FernetCore) (cipher_text : String) : String :=
  if cipher_text = "" then "" else f.dec cipher_text

/-- A concrete instance of the Fernet contract, used to witness C4. -/
def idFernetCore : FernetCore := ⟨fun s => s, fun s => s⟩

/-! ### Conversation orchestrator (`VisionService`, service.py)

Sessions mirror the dict `{"uri", "mime", "history"}` stored by
`persistence.save_session`, paired with the `updated_at` timestamp that
`get_session` returns.  `SecurityOps` is the `SecurityPort` consumed by the
service. -/

/-- One history entry: `{"role": ..., "parts": [...]}`. -/
structure Turn where
  role : String
  parts : List String
deriving DecidableEq

/-- The session dict saved by the service: encrypted uri, mime type, history. -/
structure Session where
  uri : String
  mime : String
  history : List Turn
deriving DecidableEq

/-- The `SecurityPort` as used by the service: a pair of string maps. -/
structure SecurityOps where
  encrypt : String → String
  decrypt : String → String

/-- The persistence layer: sessions (with `updated_at`), preferences keyed by
chat and preference name, and the consent flag. -/
structure PState where
  sessions : String → Option (Session × Nat)
  preferences : String → String → Option String
  accepted : String → Bool

/-- Operation `persistence.save_session`: store the session for the chat with
`updated_at = CURRENT_TIMESTAMP`. -/
def PState.saveSession (st : PState) (chat_id : String) (s : Session) (now : Nat) : PState :=
  { st with sessions := fun c => if c = chat_id then some (s, now) else st.sessions c }

/-- Operation `persistence.clear_session`: delete the chat's session row. -/
def PState.clearSession (st : PState) (chat_id : String) : PState :=
  { st with sessions := fun c => if c = chat_id then none else st.sessions c }

/-- The sentinel string both operations return when consent is missing. -/
def CONSENT_SENTINEL : String := "POR_FAVOR_ACEITE_TERMOS"

/-- Constant `VisionService.SESSION_TIMEOUT_SECONDS` (service.py line 47). -/
def SESSION_TIMEOUT_SECONDS : Nat := 180

/-- An `upload_file` provider call with its arguments. -/
structure UploadCall where
  content : List Nat
  mime : String
deriving DecidableEq

/-- An `ask_about_file` provider call with its arguments (history already
decrypted, as the service passes it). -/
structure QueryCall where
  uri : String
  mime : String
  prompt : String
  history : List Turn
deriving DecidableEq

/-- How a service operation ends: a returned string, a raised
`NoContextError`, or a propagated provider failure. -/
inductive QOutcome where
  | returned (text : String)
  | noContext (msg : String)
  | providerFailure (msg : String)
deriving DecidableEq

/-- Result of `process_question_request`: outcome, final persistence state,
fire-and-forget deletions scheduled (decrypted uris, in order), and queries
enqueued on the dispatcher. -/
structure QEffects where
  outcome : QOutcome
  state : PState
  deletions : List String
  queries : List QueryCall

/-- Result of `process_file_request`: as `QEffects` plus the uploads
enqueued on the dispatcher. -/
structure FEffects where
  outcome : QOutcome
  state : PState
  deletions : List String
  uploads : List UploadCall
  queries : List QueryCall

/-- The code of `VisionService.process_question_request` (service.py lines 173-229).
`queryResult` is what the enqueued `ask_about_file` future resolves to;
it is consulted only if the consent, session-existence and expiry checks
all pass. -/
def process_question_request (sec : SecurityOps) (st : PState) (now : Nat)
    (chat_id : String) (question : String) (queryResult : Except String String) : QEffects :=
  if st.accepted chat_id = false then
    ⟨QOutcome.returned CONSENT_SENTINEL, st, [], []⟩
  else
    match st.sessions chat_id with
    | none => ⟨QOutcome.noContext "Sem contexto ativo.", st, [], []⟩
    | some (session, updatedAt) =>
      if now - updatedAt > SESSION_TIMEOUT_SECONDS then
        ⟨QOutcome.noContext "Sessão expirada.", st.clearSession chat_id,
          [sec.decrypt session.uri], []⟩
      else
        let realUri := sec.decrypt session.uri
        let realHistory := session.history.map
          (fun h => Turn.mk h.role (h.parts.map sec.decrypt))
        match queryResult with
        | Except.error e =>
          ⟨QOutcome.providerFailure e, st, [],
            [⟨realUri, session.mime, question, realHistory⟩]⟩
        | Except.ok rawResult =>
          let cleanResult := clean_text_for_accessibility rawResult
          let newSession : Session :=
            ⟨session.uri, session.mime,
              session.history
                ++ [⟨"user", [sec.encrypt question]⟩, ⟨"model", [sec.encrypt cleanResult]⟩]⟩
          ⟨QOutcome.returned cleanResult, st.saveSession chat_id newSession now,
            [], [⟨realUri, session.mime, question, realHistory⟩]⟩

/-- Whether `needle` is a prefix of the second list. -/
def beginsWith : List Char → List Char → Bool
  | [], _ => true
  | _ :: _, [] => false
  | a :: as, b :: bs => a == b && beginsWith as bs

/-- Python `s.startswith(pre)`. -/
def strStartsWith (s pre : String) : Bool := beginsWith pre.data s.data

/-- The prompt-selection chain of `process_file_request` (service.py lines
148-167), with the two preferences already defaulted (`"longo"` /
`"completo"`). -/
def derive_prompt (mime_type : String) (style : String) (video_mode : String) : String :=
  if strStartsWith mime_type "image/" then
    if style = "curto" then "Descreva esta imagem de forma muito breve (200 letras)."
    else "Descreva detalhadamente esta imagem para um cego."
  else if strStartsWith mime_type "video/" then
    if video_mode = "legenda" then
      "Transcreva a faixa de áudio deste vídeo palavra por palavra (verbatim), criando uma legenda fiel ao que é dito."
    else "Descreva este vídeo detalhadamente de forma cronológica para um cego."
  else if strStartsWith mime_type "audio/" then
    "Transcreva este áudio palavra por palavra (verbatim). Não inclua descrições ambientais, ruídos de fundo ou interpretações de contexto. Apenas o texto do que é dito."
  else if mime_type = "application/pdf" then
    "Resuma este PDF de forma simples para um cego."
  else if mime_type = "text/csv" then
    "Analise esta tabela CSV e descreva seus dados de forma clara para um cego."
  else if mime_type = "text/html" ∨ mime_type = "text/xml" then
    "Analise o conteúdo deste documento estruturado e extraia as informações principais."
  else
    "Analise este documento e descreva seu conteúdo para uma pessoa cega."

/-- The code of `VisionService.process_file_request` (service.py lines 111-171):
consent gate, fire-and-forget deletion of a pre-existing session's resource,
upload through the queue, save of the fresh empty-history session, prompt
derivation from stored preferences, then delegation to
`process_question_request`. -/
def process_file_request (sec : SecurityOps) (st : PState) (now : Nat)
    (chat_id : String) (content_bytes : List Nat) (mime_type : String)
    (uploadResult : Except String String) (queryResult : Except String String) : FEffects :=
  if st.accepted chat_id = false then
    ⟨QOutcome.returned CONSENT_SENTINEL, st, [], [], []⟩
  else
    let dels : List String :=
      match st.sessions chat_id with
      | some (session, _) => [sec.decrypt session.uri]
      | none => []
    match uploadResult with
    | Except.error e =>
      ⟨QOutcome.providerFailure e, st, dels, [⟨content_bytes, mime_type⟩], []⟩
    | Except.ok file_uri =>
      let encrypted_uri := sec.encrypt file_uri
      let newSession : Session := ⟨encrypted_uri, mime_type, []⟩
      let st1 := st.saveSession chat_id newSession now
      let style := (st1.preferences chat_id "style").getD "longo"
      let video_mode := (st1.preferences chat_id "video_mode").getD "completo"
      let prompt := derive_prompt mime_type style video_mode
      let q := process_question_request sec st1 now chat_id prompt queryResult
      ⟨q.outcome, q.state, dels ++ q.deletions, [⟨content_bytes, mime_type⟩], q.queries⟩

/-- The claimed per-session invariant: the stored uri is a cipher output,
every part of every turn is a cipher output, and the history length is even. -/
def EncryptedSession (sec : SecurityOps) (s : Session) : Prop :=
  (∃ u, s.uri = sec.encrypt u)
  ∧ (∀ t ∈ s.history, ∀ p ∈ t.parts, ∃ x, p = sec.encrypt x)
  ∧ s.history.length % 2 = 0

/-- Every stored session satisfies `EncryptedSession`. -/
def StateInv (sec : SecurityOps) (st : PState) : Prop :=
  ∀ c s t, st.sessions c = some (s, t) → EncryptedSession sec s

/-! ### Serialized dispatcher (`VisionService._worker` / `_enqueue_request`,
service.py lines 60-78 and 94-109)

A queued work item carries the chat id and what `await func(*args)` produces
(the `try`, `except` branches of the worker).  The worker drains the FIFO
queue, delivering each item's result or exception to its future and then
sleeping the fixed 500 ms cooldown (`finally` branch) before the next item. -/

/-- A queue entry `(chat_id, func, args, future)`, with the execution of
`func(*args)` abstracted to the value or exception it produces. -/
structure WorkItem (ε ρ : Type) where
  chatId : String
  result : Except ε ρ

/-- Observable dispatcher events: the worker starting an item's provider
call, the future being resolved, and the cooldown sleep (milliseconds). -/
inductive DispatchEvent (ε ρ : Type) where
  | run (chatId : String)
  | deliver (chatId : String) (r : Except ε ρ)
  | cooldown (ms : Nat)

/-- Method `_enqueue_request`: append the item to the FIFO queue. -/
def enqueue {ε ρ : Type} (queue : List (WorkItem ε ρ)) (item : WorkItem ε ρ) :
    List (WorkItem ε ρ) :=
  queue ++ [item]

/-- Method `_worker`: process the queue front-to-back; for each item run it,
resolve its future with the result (`try`) or the exception (`except`),
and in both cases sleep 500 ms (`finally`) before the next item. -/
def worker_drain {ε ρ : Type} : List (WorkItem ε ρ) → List (DispatchEvent ε ρ)
  | [] => []
  | item :: rest =>
    DispatchEvent.run item.chatId ::
      (match item.result with
        | Except.ok r => DispatchEvent.deliver item.chatId (Except.ok r)
        | Except.error e => DispatchEvent.deliver item.chatId (Except.error e)) ::
      DispatchEvent.cooldown 500 :: worker_drain rest

/-- The chat ids of the provider calls in a trace, in execution order. -/
def runEventsOf {ε ρ : Type} (trace : List (DispatchEvent ε ρ)) : List String :=
  trace.filterMap (fun e =>
    match e with
    | DispatchEvent.run c => some c
    | _ => none)

/-- The cooldown durations in a trace, in order. -/
def cooldownsOf {ε ρ : Type} (trace : List (DispatchEvent ε ρ)) : List Nat :=
  trace.filterMap (fun e =>
    match e with
    | DispatchEvent.cooldown m => some m
    | _ => none)

/-! ### Provider retry policy (`GeminiAdapter.ask_about_file`,
gemini_adapter.py lines 61-122)

The tenacity decorator: `stop_after_attempt(3)`,
`wait_exponential(multiplier=1, min=2, max=10)`,
`retry_if_exception_type(transientAPIError)`, `reraise=True`.
The `except` clause classifies an error as transient when its lowercased
text contains `"quota"` or `"rate limit"`, permanent otherwise. -/

/-- What one underlying `generate_content` call does. -/
inductive AttemptOutcome where
  | success (text : String)
  | failure (msg : String)
deriving DecidableEq

/-- The two exception classes raised by the adapter. -/
inductive APIError where
  | transientErr (msg : String)
  | permanentErr (msg : String)
deriving DecidableEq

/-- Python `str.lower()` (ASCII, which covers the two keywords searched for). -/
def strLower (s : String) : String := String.mk (s.data.map Char.toLower)

/-- Python's `needle in hay` substring test. -/
def containsSeq (needle : List Char) : List Char → Bool
  | [] => beginsWith needle []
  | c :: cs => beginsWith needle (c :: cs) || containsSeq needle cs

/-- The test `"quota" in err_str or "rate limit" in err_str` on the lowercased text. -/
def isTransientMsg (msg : String) : Bool :=
  containsSeq "quota".data (strLower msg).data
    || containsSeq "rate limit".data (strLower msg).data

/-- The `except` clause: wrap the error as transient or permanent. -/
def classifyFailure (msg : String) : APIError :=
  if isTransientMsg msg then APIError.transientErr ("Limite de cota atingido: " ++ msg)
  else APIError.permanentErr ("Erro fatal na geração de conteúdo: " ++ msg)

/-- One attempt of the decorated body: run `generate_content` (the `i`-th
provider call) and classify a failure. -/
def attemptOnce (provider : Nat → AttemptOutcome) (i : Nat) : Except APIError String :=
  match provider i with
  | AttemptOutcome.success t => Except.ok t
  | AttemptOutcome.failure m => Except.error (classifyFailure m)

/-- The tenacity loop: `made` attempts already done, `fuel` attempts left.
Retry only on `transientErr` while attempts remain; reraise otherwise.
Returns the number of provider calls made and the final outcome. -/
def retry_ask (provider : Nat → AttemptOutcome) :
    Nat → Nat → Nat × Except APIError String
  | made, 0 => (made, Except.error (APIError.permanentErr "no attempts"))
  | made, fuel + 1 =>
    match attemptOnce provider made with
    | Except.ok t => (made + 1, Except.ok t)
    | Except.error (APIError.transientErr m) =>
      if fuel = 0 then (made + 1, Except.error (APIError.transientErr m))
      else retry_ask provider (made + 1) fuel
    | Except.error (APIError.permanentErr m) => (made + 1, Except.error (APIError.permanentErr m))

/-- Method `ask_about_file` with its retry policy: at most 3 attempts. -/
def ask_about_file_with_retry (provider : Nat → AttemptOutcome) :
    Nat × Except APIError String :=
  retry_ask provider 0 3

/-- Policy `wait_exponential(multiplier=1, min=2, max=10)`: the sleep before retry
number `n + 1`, exponential in the attempt number, clamped to [2, 10]. -/
def backoff_wait (attemptNumber : Nat) : Nat :=
  max 2 (min (2 ^ attemptNumber) 10)

/-! ### Concrete instances used by the witness theorems -/

/-- A concrete `SecurityPort` instance. -/
def idSecurityOps : SecurityOps := ⟨fun s => s, fun s => s⟩

/-- A state in which no chat has recorded consent. -/
def wStateNoConsent : PState := ⟨fun _ => none, fun _ _ => none, fun _ => false⟩

/-- A concrete stored session (uri as stored, i.e. a cipher output). -/
def wSession : Session := ⟨"enc-uri", "image/png", []⟩

/-- A state with consent recorded everywhere and one session for chat "42",
last updated at time 0. -/
def wState : PState :=
  ⟨fun c => if c = "42" then some (wSession, 0) else none, fun _ _ => none, fun _ => true⟩

/-- The provider behaviour of the C7 scenario: two transient failures, then
success. -/
def wProvider : Nat → AttemptOutcome
  | 0 => AttemptOutcome.failure "429 quota exceeded"
  | 1 => AttemptOutcome.failure "Rate Limit reached"
  | _ => AttemptOutcome.success "uma rosa vermelha"

/-! ## Theorems -/

/-- The sequential character passes of the code equal the single
`amendedStep` pass. -/
theorem pipeline_eq (l : List Char) :
    removeAll backtickChar (replaceChar '_' ' ' (removeAll '#' (removeAll '*' l)))
      = l.filterMap amendedStep := by
  induction l with
  | nil => rfl
  | cons c cs ih =>
    by_cases h1 : c = '*'
    · subst h1
      simp only [removeAll, replaceChar] at ih ⊢
      simp [amendedStep, backtickChar] at ih ⊢
      exact ih
    · by_cases h2 : c = '#'
      · subst h2
        simp only [removeAll, replaceChar] at ih ⊢
        simp [amendedStep, backtickChar] at ih ⊢
        exact ih
      · by_cases h3 : c = '_'
        · subst h3
          simp only [removeAll, replaceChar] at ih ⊢
          simp [amendedStep, backtickChar] at ih ⊢
          exact ih
        · by_cases h4 : c = backtickChar
          · subst h4
            simp only [removeAll, replaceChar] at ih ⊢
            simp [amendedStep, backtickChar] at ih ⊢
            exact ih
          · simp only [removeAll, replaceChar] at ih ⊢
            simp only [backtickChar] at h4
            simp [amendedStep, backtickChar, h1, h2, h3, h4] at ih ⊢
            exact ih

/-- The code's flag-based space collapsing equals the spec-side pairwise one. -/
theorem collapse_eq : ∀ l : List Char, collapseSpacesAux false l = specCollapse l
  | [] => rfl
  | [c] => by
    by_cases h : c = ' ' <;> simp [collapseSpacesAux, specCollapse, h]
  | c :: d :: cs => by
    have ih := collapse_eq (d :: cs)
    by_cases hc : c = ' '
    · subst hc
      by_cases hd : d = ' '
      · subst hd
        have hstep : collapseSpacesAux false (' ' :: ' ' :: cs)
            = ' ' :: collapseSpacesAux true cs := by
          simp [collapseSpacesAux]
        have hstep2 : collapseSpacesAux false (' ' :: cs)
            = ' ' :: collapseSpacesAux true cs := by
          simp [collapseSpacesAux]
        rw [hstep, show specCollapse (' ' :: ' ' :: cs) = specCollapse (' ' :: cs) by
          simp [specCollapse]]
        rw [← ih, hstep2]
      · have hstep : collapseSpacesAux false (' ' :: d :: cs)
            = ' ' :: collapseSpacesAux false (d :: cs) := by
          simp [collapseSpacesAux, hd]
        rw [hstep, ih]
        simp [specCollapse, hd]
    · have hstep : collapseSpacesAux false (c :: d :: cs)
          = c :: collapseSpacesAux false (d :: cs) := by
        simp [collapseSpacesAux, hc]
      rw [hstep, ih]
      simp [specCollapse, hc]

/-- C10 counterexample: on `"a_b"` the code yields `"a b"` (the underscore is
replaced by a space), while the removal behaviour stated by the claim yields
`"ab"`; the two differ. -/
theorem sanitizer_underscore_counterexample :
    clean_text_for_accessibility "a_b" = "a b"
    ∧ claimSanitize "a_b" = "ab"
    ∧ clean_text_for_accessibility "a_b" ≠ claimSanitize "a_b" := by
  refine ⟨by decide, by decide, by decide⟩

/-- C10 (amended): for every input string the sanitizer is the pure function
that removes `*`, `#` and backtick, replaces `_` by a space, collapses each
run of consecutive spaces to a single space, and trims leading and trailing
whitespace. -/
theorem sanitizer_amended_pipeline (s : String) :
    clean_text_for_accessibility s = amendedSanitize s := by
  unfold clean_text_for_accessibility amendedSanitize
  rw [pipeline_eq, collapse_eq]

/-- C4: given the Fernet library contract (non-empty plaintexts round-trip
and produce non-empty tokens), the adapter round-trips every non-empty
string exactly, and both directions map empty input to empty output. -/
theorem cipher_round_trip (f : FernetCore)
    (hrt : ∀ s : String, s ≠ "" → f.dec (f.enc s) = s)
    (hne : ∀ s : String, s ≠ "" → f.enc s ≠ "") :
    (∀ x : String, x ≠ "" →
      FernetSecurityAdapter.decrypt f (FernetSecurityAdapter.encrypt f x) = x)
    ∧ FernetSecurityAdapter.encrypt f "" = ""
    ∧ FernetSecurityAdapter.decrypt f "" = "" := by
  refine ⟨?_, rfl, rfl⟩
  intro x hx
  unfold FernetSecurityAdapter.encrypt FernetSecurityAdapter.decrypt
  rw [if_neg hx, if_neg (hne x hx), hrt x hx]

/-- C4 witness: the round-trip theorem applied to a concrete primitive and
the concrete plaintext `"hello"`. -/
theorem cipher_round_trip_witness :
    FernetSecurityAdapter.decrypt idFernetCore
      (FernetSecurityAdapter.encrypt idFernetCore "hello") = "hello"
    ∧ FernetSecurityAdapter.encrypt idFernetCore "" = ""
    ∧ FernetSecurityAdapter.decrypt idFernetCore "" = "" := by
  obtain ⟨h1, h2, h3⟩ :=
    cipher_round_trip idFernetCore (fun s _ => rfl) (fun s hs => hs)
  exact ⟨h1 "hello" (by decide), h2, h3⟩

/-- C1: without recorded consent both operations return the consent sentinel,
perform no provider call of any kind (no upload, no query, no deletion), and
leave the persistence state untouched. -/
theorem consent_gate_blocks_processing (sec : SecurityOps) (st : PState) (now : Nat)
    (chat_id question : String) (content_bytes : List Nat) (mime_type : String)
    (uploadResult queryResult : Except String String)
    (hterms : st.accepted chat_id = false) :
    process_file_request sec st now chat_id content_bytes mime_type uploadResult queryResult
      = ⟨QOutcome.returned CONSENT_SENTINEL, st, [], [], []⟩
    ∧ process_question_request sec st now chat_id question queryResult
      = ⟨QOutcome.returned CONSENT_SENTINEL, st, [], []⟩ := by
  constructor
  · unfold process_file_request
    rw [if_pos hterms]
  · unfold process_question_request
    rw [if_pos hterms]

/-- C1 witness: the consent gate at a concrete unconsented state. -/
theorem consent_gate_blocks_processing_witness :
    process_file_request idSecurityOps wStateNoConsent 0 "42" [1] "image/png"
        (Except.ok "uri") (Except.ok "uma rosa")
      = ⟨QOutcome.returned CONSENT_SENTINEL, wStateNoConsent, [], [], []⟩
    ∧ process_question_request idSecurityOps wStateNoConsent 0 "42" "o que aparece?"
        (Except.ok "uma rosa")
      = ⟨QOutcome.returned CONSENT_SENTINEL, wStateNoConsent, [], []⟩ :=
  consent_gate_blocks_processing idSecurityOps wStateNoConsent 0 "42" "o que aparece?"
    [1] "image/png" (Except.ok "uri") (Except.ok "uma rosa") rfl

/-- C2: with consent recorded, `process_question_request` raises
`NoContextError` exactly when no usable session exists; with no stored
session it raises and changes nothing, and with a stale session (idle for
more than 180 seconds) it schedules exactly one deletion of the decrypted
stale resource reference, clears the session, raises, and performs no
provider query. -/
theorem no_context_iff_no_usable_session (sec : SecurityOps) (st : PState) (now : Nat)
    (chat_id question : String) (queryResult : Except String String)
    (hterms : st.accepted chat_id = true) :
    ((∃ msg, (process_question_request sec st now chat_id question queryResult).outcome
        = QOutcome.noContext msg)
      ↔ (st.sessions chat_id = none
          ∨ ∃ s t0, st.sessions chat_id = some (s, t0) ∧ now - t0 > SESSION_TIMEOUT_SECONDS))
    ∧ (st.sessions chat_id = none →
        process_question_request sec st now chat_id question queryResult
          = ⟨QOutcome.noContext "Sem contexto ativo.", st, [], []⟩)
    ∧ (∀ s t0, st.sessions chat_id = some (s, t0) → now - t0 > SESSION_TIMEOUT_SECONDS →
        process_question_request sec st now chat_id question queryResult
          = ⟨QOutcome.noContext "Sessão expirada.", st.clearSession chat_id,
              [sec.decrypt s.uri], []⟩
          ∧ (st.clearSession chat_id).sessions chat_id = none) := by
  have hne : ¬ st.accepted chat_id = false := by simp [hterms]
  rcases hs : st.sessions chat_id with _ | ⟨s0, t0⟩
  · refine ⟨⟨fun _ => Or.inl rfl, fun _ => ?_⟩, fun _ => ?_, fun s t0 h _ => Option.noConfusion h⟩
    · exact ⟨"Sem contexto ativo.", by simp [process_question_request, hne, hs]⟩
    · simp [process_question_request, hne, hs]
  · by_cases ht : now - t0 > SESSION_TIMEOUT_SECONDS
    · refine ⟨⟨fun _ => Or.inr ⟨s0, t0, rfl, ht⟩, fun _ => ?_⟩,
        fun h => Option.noConfusion h, fun s t1 h hgt => ?_⟩
      · exact ⟨"Sessão expirada.", by simp [process_question_request, hne, hs, ht]⟩
      · have h2 := Option.some.inj h
        have hfst : s0 = s := congrArg Prod.fst h2
        have hsnd : t0 = t1 := congrArg Prod.snd h2
        subst hfst
        subst hsnd
        constructor
        · simp [process_question_request, hne, hs, ht]
        · simp [PState.clearSession]
    · refine ⟨⟨?_, ?_⟩, fun h => Option.noConfusion h, fun s t1 h hgt => ?_⟩
      · rintro ⟨msg, hmsg⟩
        exfalso
        cases queryResult with
        | error e => simp [process_question_request, hne, hs, ht] at hmsg
        | ok r => simp [process_question_request, hne, hs, ht] at hmsg
      · rintro (h | ⟨s, t1, h, hgt⟩)
        · exact Option.noConfusion h
        · have hsnd : t0 = t1 := congrArg Prod.snd (Option.some.inj h)
          subst hsnd
          exact absurd hgt ht
      · have hsnd : t0 = t1 := congrArg Prod.snd (Option.some.inj h)
        subst hsnd
        exact absurd hgt ht

/-- C2 witness: at a concrete state with one session last updated at time 0,
a question at time 200 hits the expiry branch: session cleared, exactly one
deletion of the decrypted uri, no provider query. -/
theorem no_context_iff_no_usable_session_witness :
    process_question_request idSecurityOps wState 200 "42" "pergunta" (Except.ok "resp")
      = ⟨QOutcome.noContext "Sessão expirada.", wState.clearSession "42",
          [idSecurityOps.decrypt wSession.uri], []⟩
    ∧ (wState.clearSession "42").sessions "42" = none :=
  (no_context_iff_no_usable_session idSecurityOps wState 200 "42" "pergunta"
    (Except.ok "resp") rfl).2.2 wSession 0 rfl (by decide)

/-- Clearing a session preserves the encrypted-state invariant. -/
theorem clearSession_inv (sec : SecurityOps) (st : PState) (chat_id : String)
    (hinv : StateInv sec st) : StateInv sec (st.clearSession chat_id) := by
  intro c s t h
  by_cases hc : c = chat_id
  · subst hc
    simp [PState.clearSession] at h
  · simp [PState.clearSession, hc] at h
    exact hinv c s t h

/-- Saving a session that satisfies the invariant preserves it. -/
theorem saveSession_inv (sec : SecurityOps) (st : PState) (chat_id : String)
    (snew : Session) (now : Nat) (hinv : StateInv sec st)
    (hnew : EncryptedSession sec snew) : StateInv sec (st.saveSession chat_id snew now) := by
  intro c s t h
  by_cases hc : c = chat_id
  · subst hc
    simp [PState.saveSession] at h
    obtain ⟨h1, _⟩ := h
    exact h1 ▸ hnew
  · simp [PState.saveSession, hc] at h
    exact hinv c s t h

/-- Operation `process_question_request` preserves the encrypted-state invariant. -/
theorem question_request_preserves_inv (sec : SecurityOps) (st : PState) (now : Nat)
    (chat_id question : String) (queryResult : Except String String)
    (hinv : StateInv sec st) :
    StateInv sec (process_question_request sec st now chat_id question queryResult).state := by
  by_cases hterms : st.accepted chat_id = false
  · simpa [process_question_request, hterms] using hinv
  · rcases hs : st.sessions chat_id with _ | ⟨s0, t0⟩
    · simpa [process_question_request, hterms, hs] using hinv
    · by_cases ht : now - t0 > SESSION_TIMEOUT_SECONDS
      · simp only [process_question_request, hterms, hs, ht]
        simpa [hterms, ht] using clearSession_inv sec st chat_id hinv
      · obtain ⟨hu, hparts, heven⟩ := hinv chat_id s0 t0 hs
        cases queryResult with
        | error e => simpa [process_question_request, hterms, hs, ht] using hinv
        | ok r =>
          simp only [process_question_request, hterms, hs, ht]
          simp only [hterms, ht, if_false, ite_false]
          refine saveSession_inv sec st chat_id _ now hinv ⟨hu, ?_, ?_⟩
          · intro t htmem p hp
            rcases List.mem_append.1 htmem with hold | hnew2
            · exact hparts t hold p hp
            · simp only [List.mem_cons, List.not_mem_nil, or_false] at hnew2
              rcases hnew2 with rfl | rfl
              · simp only [List.mem_singleton] at hp
                exact ⟨question, hp⟩
              · simp only [List.mem_singleton] at hp
                exact ⟨clean_text_for_accessibility r, hp⟩
          · simp only [List.length_append, List.length_cons, List.length_nil]
            omega

/-- C3: starting from a state in which every stored session is
cipher-protected with even history, every orchestrator operation leaves
every stored session cipher-protected with even history; and if the upload
fails no session is created (the state is unchanged). -/
theorem session_state_invariant_preserved (sec : SecurityOps) (st : PState) (now : Nat)
    (chat_id question : String) (content_bytes : List Nat) (mime_type : String)
    (uploadResult queryResult : Except String String)
    (hinv : StateInv sec st) :
    StateInv sec (process_question_request sec st now chat_id question queryResult).state
    ∧ StateInv sec (process_file_request sec st now chat_id content_bytes mime_type
        uploadResult queryResult).state
    ∧ (∀ e, uploadResult = Except.error e →
        (process_file_request sec st now chat_id content_bytes mime_type
          uploadResult queryResult).state = st) := by
  refine ⟨question_request_preserves_inv sec st now chat_id question queryResult hinv, ?_, ?_⟩
  · by_cases hterms : st.accepted chat_id = false
    · simpa [process_file_request, hterms] using hinv
    · cases uploadResult with
      | error e => simpa [process_file_request, hterms] using hinv
      | ok file_uri =>
        simp only [process_file_request, hterms, if_false, ite_false]
        apply question_request_preserves_inv
        exact saveSession_inv sec st chat_id _ now hinv
          ⟨⟨file_uri, rfl⟩, by simp, by simp⟩
  · intro e he
    subst he
    by_cases hterms : st.accepted chat_id = false
    · simp [process_file_request, hterms]
    · simp [process_file_request, hterms]

/-- C3 witness: the invariant theorem applied at a concrete state whose only
session is cipher-protected with empty history. -/
theorem session_state_invariant_preserved_witness :
    StateInv idSecurityOps
      (process_question_request idSecurityOps wState 10 "42" "pergunta"
        (Except.ok "resp")).state
    ∧ StateInv idSecurityOps
      (process_file_request idSecurityOps wState 10 "42" [1] "image/png"
        (Except.ok "uri2") (Except.ok "resp")).state
    ∧ (∀ e, (Except.ok "uri2" : Except String String) = Except.error e →
        (process_file_request idSecurityOps wState 10 "42" [1] "image/png"
          (Except.ok "uri2") (Except.ok "resp")).state = wState) := by
  apply session_state_invariant_preserved
  intro c s t h
  by_cases hc : c = "42"
  · subst hc
    simp [wState] at h
    obtain ⟨h1, _⟩ := h
    exact h1 ▸ ⟨⟨"enc-uri", rfl⟩, by simp [wSession], by simp [wSession]⟩
  · simp [wState, hc] at h

/-- C6: a successful upload for a chat with an existing session schedules
exactly one deletion call, for the prior session's decrypted resource
reference, and the replacement session is built from the fresh upload with a
history containing only the new initial instruction pair — none of the old
history survives. -/
theorem replacement_upload_single_delete (sec : SecurityOps) (st : PState) (now : Nat)
    (chat_id : String) (content_bytes : List Nat) (mime_type : String)
    (oldSession : Session) (t0 : Nat) (file_uri rawAnswer : String)
    (hterms : st.accepted chat_id = true)
    (hold : st.sessions chat_id = some (oldSession, t0)) :
    (process_file_request sec st now chat_id content_bytes mime_type
        (Except.ok file_uri) (Except.ok rawAnswer)).deletions
      = [sec.decrypt oldSession.uri]
    ∧ (process_file_request sec st now chat_id content_bytes mime_type
        (Except.ok file_uri) (Except.ok rawAnswer)).state.sessions chat_id
      = some (⟨sec.encrypt file_uri, mime_type,
          [⟨"user", [sec.encrypt (derive_prompt mime_type
              ((st.preferences chat_id "style").getD "longo")
              ((st.preferences chat_id "video_mode").getD "completo"))]⟩,
           ⟨"model", [sec.encrypt (clean_text_for_accessibility rawAnswer)]⟩]⟩, now)
    ∧ (process_file_request sec st now chat_id content_bytes mime_type
        (Except.ok file_uri) (Except.ok rawAnswer)).uploads
      = [⟨content_bytes, mime_type⟩] := by
  have hne : ¬ st.accepted chat_id = false := by simp [hterms]
  refine ⟨?_, ?_, ?_⟩ <;>
    simp [process_file_request, process_question_request, PState.saveSession,
      hne, hold, SESSION_TIMEOUT_SECONDS, Nat.sub_self]

/-- C6 witness: the replacement theorem at a concrete state holding one
session for chat "42". -/
theorem replacement_upload_single_delete_witness :
    (process_file_request idSecurityOps wState 10 "42" [1] "image/png"
        (Except.ok "uri2") (Except.ok "uma rosa")).deletions
      = [idSecurityOps.decrypt wSession.uri]
    ∧ (process_file_request idSecurityOps wState 10 "42" [1] "image/png"
        (Except.ok "uri2") (Except.ok "uma rosa")).state.sessions "42"
      = some (⟨idSecurityOps.encrypt "uri2", "image/png",
          [⟨"user", [idSecurityOps.encrypt (derive_prompt "image/png"
              ((wState.preferences "42" "style").getD "longo")
              ((wState.preferences "42" "video_mode").getD "completo"))]⟩,
           ⟨"model", [idSecurityOps.encrypt (clean_text_for_accessibility "uma rosa")]⟩]⟩, 10)
    ∧ (process_file_request idSecurityOps wState 10 "42" [1] "image/png"
        (Except.ok "uri2") (Except.ok "uma rosa")).uploads
      = [⟨[1], "image/png"⟩] :=
  replacement_upload_single_delete idSecurityOps wState 10 "42" [1] "image/png"
    wSession 0 "uri2" "uma rosa" rfl (by simp [wState])

/-- C8: for an image mime type, the derived initial instruction is the
short 200-letter description request exactly when the stored style
preference is `"curto"`; with no stored preference or the `"longo"`
preference it is the unrestricted detailed-description request. -/
theorem image_prompt_style_selection (mime_type : String)
    (stylePref videoModePref : Option String)
    (him : strStartsWith mime_type "image/" = true) :
    (stylePref = some "curto" →
      derive_prompt mime_type (stylePref.getD "longo") (videoModePref.getD "completo")
        = "Descreva esta imagem de forma muito breve (200 letras).")
    ∧ ((stylePref = none ∨ stylePref = some "longo") →
      derive_prompt mime_type (stylePref.getD "longo") (videoModePref.getD "completo")
        = "Descreva detalhadamente esta imagem para um cego.") := by
  constructor
  · rintro rfl
    simp [derive_prompt, him]
  · rintro (rfl | rfl) <;> simp [derive_prompt, him]

/-- C8 witness: the prompt-derivation theorem at the concrete mime type
`"image/png"` with the stored short-style preference. -/
theorem image_prompt_style_selection_witness :
    ((some "curto" : Option String) = some "curto" →
      derive_prompt "image/png" ((some "curto" : Option String).getD "longo")
          ((none : Option String).getD "completo")
        = "Descreva esta imagem de forma muito breve (200 letras).")
    ∧ (((some "curto" : Option String) = none ∨ (some "curto" : Option String) = some "longo") →
      derive_prompt "image/png" ((some "curto" : Option String).getD "longo")
          ((none : Option String).getD "completo")
        = "Descreva detalhadamente esta imagem para um cego.") :=
  image_prompt_style_selection "image/png" (some "curto") none (by decide)

/-- C9: a successful question mutates the chat's stored session only by
appending the encrypted user turn then the encrypted sanitized model turn
and refreshing `updated_at`; uri and mime are carried over unchanged, other
chats' sessions, all preferences and all consent flags are untouched, and
no deletion is scheduled. -/
theorem question_frame_effect (sec : SecurityOps) (st : PState) (now : Nat)
    (chat_id question rawAnswer : String) (s0 : Session) (t0 : Nat)
    (hterms : st.accepted chat_id = true)
    (hsess : st.sessions chat_id = some (s0, t0))
    (hfresh : ¬ now - t0 > SESSION_TIMEOUT_SECONDS) :
    (process_question_request sec st now chat_id question (Except.ok rawAnswer)).outcome
      = QOutcome.returned (clean_text_for_accessibility rawAnswer)
    ∧ (process_question_request sec st now chat_id question (Except.ok rawAnswer)).state.sessions chat_id
      = some (⟨s0.uri, s0.mime,
          s0.history ++ [⟨"user", [sec.encrypt question]⟩,
            ⟨"model", [sec.encrypt (clean_text_for_accessibility rawAnswer)]⟩]⟩, now)
    ∧ (∀ c, c ≠ chat_id →
        (process_question_request sec st now chat_id question (Except.ok rawAnswer)).state.sessions c
          = st.sessions c)
    ∧ (process_question_request sec st now chat_id question (Except.ok rawAnswer)).state.preferences
      = st.preferences
    ∧ (process_question_request sec st now chat_id question (Except.ok rawAnswer)).state.accepted
      = st.accepted
    ∧ (process_question_request sec st now chat_id question (Except.ok rawAnswer)).deletions
      = [] := by
  have hne : ¬ st.accepted chat_id = false := by simp [hterms]
  refine ⟨?_, ?_, fun c hc => ?_, ?_, ?_, ?_⟩
  · simp [process_question_request, PState.saveSession, hne, hsess, hfresh]
  · simp [process_question_request, PState.saveSession, hne, hsess, hfresh]
  · simp [process_question_request, PState.saveSession, hne, hsess, hfresh, hc]
  · simp [process_question_request, PState.saveSession, hne, hsess, hfresh]
  · simp [process_question_request, PState.saveSession, hne, hsess, hfresh]
  · simp [process_question_request, PState.saveSession, hne, hsess, hfresh]

/-- C9 witness: the frame-effect theorem at a concrete fresh session. -/
theorem question_frame_effect_witness :
    (process_question_request idSecurityOps wState 10 "42" "pergunta" (Except.ok "uma rosa")).outcome
      = QOutcome.returned (clean_text_for_accessibility "uma rosa")
    ∧ (process_question_request idSecurityOps wState 10 "42" "pergunta" (Except.ok "uma rosa")).state.sessions "42"
      = some (⟨wSession.uri, wSession.mime,
          wSession.history ++ [⟨"user", [idSecurityOps.encrypt "pergunta"]⟩,
            ⟨"model", [idSecurityOps.encrypt (clean_text_for_accessibility "uma rosa")]⟩]⟩, 10)
    ∧ (∀ c, c ≠ "42" →
        (process_question_request idSecurityOps wState 10 "42" "pergunta" (Except.ok "uma rosa")).state.sessions c
          = wState.sessions c)
    ∧ (process_question_request idSecurityOps wState 10 "42" "pergunta" (Except.ok "uma rosa")).state.preferences
      = wState.preferences
    ∧ (process_question_request idSecurityOps wState 10 "42" "pergunta" (Except.ok "uma rosa")).state.accepted
      = wState.accepted
    ∧ (process_question_request idSecurityOps wState 10 "42" "pergunta" (Except.ok "uma rosa")).deletions
      = [] :=
  question_frame_effect idSecurityOps wState 10 "42" "pergunta" "uma rosa"
    wSession 0 rfl (by simp [wState]) (by decide)

/-- Enqueuing a batch of items appends them in submission order. -/
theorem foldl_enqueue {ε ρ : Type} :
    ∀ (ops : List (WorkItem ε ρ)) (q : List (WorkItem ε ρ)),
      ops.foldl enqueue q = q ++ ops
  | [], q => by simp
  | i :: rest, q => by
    rw [List.foldl_cons, foldl_enqueue rest (enqueue q i)]
    simp [enqueue]

/-- C5: items submitted in order op1..opN form the queue in that order; the
single worker produces the provider calls in exactly that order, one per
item, and pauses the fixed 500 ms cooldown after each completed item,
whether the item succeeded or failed, before starting the next one. -/
theorem dispatcher_fifo_cooldown {ε ρ : Type} (ops : List (WorkItem ε ρ)) :
    ops.foldl enqueue [] = ops
    ∧ runEventsOf (worker_drain ops) = ops.map (fun i => i.chatId)
    ∧ cooldownsOf (worker_drain ops) = List.replicate ops.length 500
    ∧ (∀ (item : WorkItem ε ρ) (rest : List (WorkItem ε ρ)),
        worker_drain (item :: rest)
          = DispatchEvent.run item.chatId
            :: DispatchEvent.deliver item.chatId item.result
            :: DispatchEvent.cooldown 500 :: worker_drain rest) := by
  have hstep : ∀ (item : WorkItem ε ρ) (rest : List (WorkItem ε ρ)),
      worker_drain (item :: rest)
        = DispatchEvent.run item.chatId
          :: DispatchEvent.deliver item.chatId item.result
          :: DispatchEvent.cooldown 500 :: worker_drain rest := by
    intro item rest
    cases hr : item.result <;> simp [worker_drain, hr]
  refine ⟨by simpa using foldl_enqueue ops [], ?_, ?_, hstep⟩
  · induction ops with
    | nil => rfl
    | cons i rest ih =>
      rw [hstep i rest]
      simpa [runEventsOf] using ih
  · induction ops with
    | nil => rfl
    | cons i rest ih =>
      rw [hstep i rest]
      simpa [cooldownsOf, List.replicate_succ] using ih

/-- The retry loop makes at most `made + fuel` provider calls. -/
theorem retry_ask_le (p : Nat → AttemptOutcome) :
    ∀ (fuel made : Nat), (retry_ask p made fuel).1 ≤ made + fuel
  | 0, made => by simp [retry_ask]
  | fuel + 1, made => by
    cases hA : attemptOnce p made with
    | ok t =>
      simp [retry_ask, hA]
      try omega
    | error err =>
      cases err with
      | transientErr m =>
        by_cases hf : fuel = 0
        · simp [retry_ask, hA, hf]
          try omega
        · have h := retry_ask_le p fuel (made + 1)
          simp [retry_ask, hA, hf]
          omega
      | permanentErr m =>
        simp [retry_ask, hA]
        try omega

/-- C7: with two transiently-classified failures then a success, the retry
policy makes exactly three provider calls and returns the success; the
dispatcher runs all this as one logical work item whose caller receives the
success.  In general at most 3 attempts are made, a failure not classified
transient is surfaced as permanent after a single attempt, and every
backoff wait lies between the 2 s base and the 10 s cap. -/
theorem transient_retry_scenario (provider : Nat → AttemptOutcome)
    (chat v m1 m2 : String)
    (h0 : provider 0 = AttemptOutcome.failure m1) (h0t : isTransientMsg m1 = true)
    (h1 : provider 1 = AttemptOutcome.failure m2) (h1t : isTransientMsg m2 = true)
    (h2 : provider 2 = AttemptOutcome.success v) :
    ask_about_file_with_retry provider = (3, Except.ok v)
    ∧ worker_drain [(⟨chat, (ask_about_file_with_retry provider).2⟩ : WorkItem APIError String)]
        = [DispatchEvent.run chat, DispatchEvent.deliver chat (Except.ok v),
            DispatchEvent.cooldown 500]
    ∧ runEventsOf (worker_drain
        [(⟨chat, (ask_about_file_with_retry provider).2⟩ : WorkItem APIError String)])
      = [chat]
    ∧ (∀ p : Nat → AttemptOutcome, (ask_about_file_with_retry p).1 ≤ 3)
    ∧ (∀ (p : Nat → AttemptOutcome) (m : String),
        p 0 = AttemptOutcome.failure m → isTransientMsg m = false →
        ask_about_file_with_retry p
          = (1, Except.error (APIError.permanentErr
              ("Erro fatal na geração de conteúdo: " ++ m))))
    ∧ (∀ n : Nat, 2 ≤ backoff_wait n ∧ backoff_wait n ≤ 10) := by
  have s1 : retry_ask provider 0 3 = retry_ask provider 1 2 := by
    show retry_ask provider 0 (2 + 1) = retry_ask provider 1 2
    simp [retry_ask, attemptOnce, h0, classifyFailure, h0t]
  have s2 : retry_ask provider 1 2 = retry_ask provider 2 1 := by
    show retry_ask provider 1 (1 + 1) = retry_ask provider 2 1
    simp [retry_ask, attemptOnce, h1, classifyFailure, h1t]
  have s3 : retry_ask provider 2 1 = (3, Except.ok v) := by
    show retry_ask provider 2 (0 + 1) = (3, Except.ok v)
    simp [retry_ask, attemptOnce, h2]
  have hmain : ask_about_file_with_retry provider = (3, Except.ok v) := by
    unfold ask_about_file_with_retry
    rw [s1, s2, s3]
  refine ⟨hmain, ?_, ?_, ?_, ?_, ?_⟩
  · simp [hmain, worker_drain]
  · simp [hmain, worker_drain, runEventsOf]
  · intro p
    simpa using retry_ask_le p 3 0
  · intro p m hp hmt
    show retry_ask p 0 (2 + 1) = _
    simp [retry_ask, attemptOnce, hp, classifyFailure, hmt]
  · intro n
    constructor
    · exact le_max_left 2 _
    · exact max_le (by norm_num) (min_le_right _ 10)

/-- C7 witness: the scenario theorem at the concrete provider behaviour
`wProvider` ("quota" failure, "rate limit" failure, then success). -/
theorem transient_retry_scenario_witness :
    ask_about_file_with_retry wProvider = (3, Except.ok "uma rosa vermelha")
    ∧ worker_drain [(⟨"42", (ask_about_file_with_retry wProvider).2⟩ : WorkItem APIError String)]
        = [DispatchEvent.run "42",
            DispatchEvent.deliver "42" (Except.ok "uma rosa vermelha"),
            DispatchEvent.cooldown 500]
    ∧ runEventsOf (worker_drain
        [(⟨"42", (ask_about_file_with_retry wProvider).2⟩ : WorkItem APIError String)])
      = ["42"]
    ∧ (∀ p : Nat → AttemptOutcome, (ask_about_file_with_retry p).1 ≤ 3)
    ∧ (∀ (p : Nat → AttemptOutcome) (m : String),
        p 0 = AttemptOutcome.failure m → isTransientMsg m = false →
        ask_about_file_with_retry p
          = (1, Except.error (APIError.permanentErr
              ("Erro fatal na geração de conteúdo: " ++ m))))
    ∧ (∀ n : Nat, 2 ≤ backoff_wait n ∧ backoff_wait n ≤ 10) :=
  transient_retry_scenario wProvider "42" "uma rosa vermelha"
    "429 quota exceeded" "Rate Limit reached"
    rfl (by decide) rfl (by decide) rfl

end Amelie
